import Mathlib

/-!
Verification of `src/flashcards.py` (argeier/flashcards).

The Python source is shallowly embedded: strings are modelled as `List Char`
(`Lstr`), float arithmetic as exact rationals (`ℚ`), and the external
collaborators that perform I/O are modelled as explicit parameters — the
filesystem as an existence predicate `Lstr → Bool`, ReportLab's
`canvas.stringWidth` text-metrics call as a function `Lstr → ℚ`, and
ReportLab's image decoding (`RLImage`, which can raise) as a success
predicate `Lstr → Bool`.  All definitions are executable and structurally
recursive (scanners that advance past a match use an explicit fuel argument
initialised to the string length, which is always sufficient), so concrete
runs reduce inside the kernel.
-/

namespace Flashcards

/-- A Python string, modelled as its list of characters. -/
abbrev Lstr := List Char

/-- Python's notion of whitespace, as used by `str.strip` / `str.lstrip`
and by the regex class `\s`. -/
def pyIsSpace (c : Char) : Bool :=
  c == ' ' || c == '\t' || c == '\n' || c == '\r' || c == '\x0b' || c == '\x0c'

/-- Python `str.lstrip()`. -/
def pyLstrip (s : Lstr) : Lstr := s.dropWhile pyIsSpace

/-- Python `str.rstrip()`. -/
def pyRstrip (s : Lstr) : Lstr := (s.reverse.dropWhile pyIsSpace).reverse

/-- Python `str.strip()`. -/
def pyStrip (s : Lstr) : Lstr := pyRstrip (pyLstrip s)

/-- Python `str.split(sep)` for a one-character separator: keeps empty
pieces, and splitting the empty string yields `[""]`. -/
def splitOnChar (sep : Char) : Lstr → List Lstr
  | [] => [[]]
  | c :: rest =>
    if c == sep then [] :: splitOnChar sep rest
    else
      match splitOnChar sep rest with
      | [] => [[c]]
      | l :: ls => (c :: l) :: ls

/-- `text.split("\n")`, as in `parse_to_flowables` (flashcards.py:147). -/
def splitNl (s : Lstr) : List Lstr := splitOnChar '\n' s

/-- `xml.sax.saxutils.escape` applied to one character. -/
def escapeChar (c : Char) : Lstr :=
  if c == '&' then "&amp;".data
  else if c == '<' then "&lt;".data
  else if c == '>' then "&gt;".data
  else [c]

/-- `xml.sax.saxutils.escape` (flashcards.py imports it as `escape`):
replaces `&`, `<`, `>` by their XML entities. -/
def escape : Lstr → Lstr
  | [] => []
  | c :: rest => escapeChar c ++ escape rest

/-- Inverse scanner for `escape`, used to state that escaping loses no
information (the renderer decodes the entities back to the characters).
Fuel-driven; `unescape` below supplies sufficient fuel. -/
def unescapeF : Nat → Lstr → Lstr
  | 0, s => s
  | _ + 1, [] => []
  | f + 1, c :: rest =>
    if c == '&' && "amp;".data.isPrefixOf rest then '&' :: unescapeF f (rest.drop 4)
    else if c == '&' && "lt;".data.isPrefixOf rest then '<' :: unescapeF f (rest.drop 3)
    else if c == '&' && "gt;".data.isPrefixOf rest then '>' :: unescapeF f (rest.drop 3)
    else c :: unescapeF f rest

/-- Decodes the XML entities produced by `escape`. -/
def unescape (s : Lstr) : Lstr := unescapeF s.length s

/-- Python `"\t".replace` with four spaces, from
`longest_line.replace("\t", "    ")` (flashcards.py:172). -/
def expandTabs : Lstr → Lstr
  | [] => []
  | c :: rest => (if c == '\t' then "    ".data else [c]) ++ expandTabs rest

/-- Python `max(code_lines, key=len)` (flashcards.py:169): the first line of
maximal length; the empty string when there are no lines. -/
def longestLine : List Lstr → Lstr
  | [] => []
  | h :: t => t.foldl (fun acc x => if acc.length < x.length then x else acc) h

/-- The text before the first `|`, i.e. Python `m.split("|")[0]`
(flashcards.py:76). -/
def beforeBar : Lstr → Lstr
  | [] => []
  | c :: rest => if c == '|' then [] else c :: beforeBar rest

/-- Splits at the first occurrence of `delim`: returns the text before it and
the text after it, or `none` when `delim` does not occur.  This is how a
non-greedy regex group followed by a literal delimiter matches. -/
def findSplit (delim : Lstr) : Lstr → Option (Lstr × Lstr)
  | [] => none
  | c :: rest =>
    if delim.isPrefixOf (c :: rest) then some ([], (c :: rest).drop delim.length)
    else
      match findSplit delim rest with
      | some (pre, post) => some (c :: pre, post)
      | none => none

/-- Scanner for `re.findall(r"!\[\[(.*?)(?:\|.*?)?\]\]", text)` followed by
`m.split("|")[0]` (flashcards.py:75-76): every occurrence of `![[` up to the
first subsequent `]]` yields the enclosed text cut at its first `|`.
Fuel-driven (the fuel, initialised to the text length, bounds the number of
scanned positions and is always sufficient). -/
def extractF : Nat → Lstr → List Lstr
  | 0, _ => []
  | _ + 1, [] => []
  | f + 1, c :: rest =>
    if "![[".data.isPrefixOf (c :: rest) then
      match findSplit "]]".data ((c :: rest).drop 3) with
      | some (content, after) => beforeBar content :: extractF f after
      | none => []
    else extractF f rest

/-- `_extract_image_names` (flashcards.py:75-76). -/
def extract_image_names (text : Lstr) : List Lstr := extractF text.length text

/-- Non-greedy `re.sub(open (.*?) close, pre \1 post, s)` with literal
delimiters: scans left to right; at each match emits `pre ++ content ++ post`
and continues after the match.  Fuel-driven; `reSub` supplies the string
length, which bounds the number of scanned positions. -/
def subF (od cd pre post : Lstr) : Nat → Lstr → Lstr
  | 0, s => s
  | _ + 1, [] => []
  | f + 1, c :: rest =>
    if od.isPrefixOf (c :: rest) then
      match findSplit cd ((c :: rest).drop od.length) with
      | some (content, after) => pre ++ content ++ post ++ subF od cd pre post f after
      | none => c :: rest
    else c :: subF od cd pre post f rest

/-- One `re.sub` pass as used for inline markup (flashcards.py:207-209 and
266-268). -/
def reSub (od cd pre post : Lstr) (s : Lstr) : Lstr := subF od cd pre post s.length s

/-- The inline rich-text substitution applied to paragraph text and table
cells (flashcards.py:206-209, 265-268): XML-escape, then `**x**` → `<b>x</b>`,
`*x*` → `<i>x</i>`, and backtick spans → a Courier font tag. -/
def formatInline (s : Lstr) : Lstr :=
  reSub "`".data "`".data "<font name=\"Courier\">".data "</font>".data
    (reSub "*".data "*".data "<i>".data "</i>".data
      (reSub "**".data "**".data "<b>".data "</b>".data (escape s)))

/-- `pathlib`'s `dir / name` join, for the modelled filesystem. -/
def pathJoin (d f : Lstr) : Lstr := d ++ '/' :: f

/-- `_resolve_image_path` (flashcards.py:79-84): returns
`images_dir / filename` when the directory is set and that path exists,
`None` otherwise.  The filesystem is the predicate `ex`. -/
def resolve_image_path (filename : Lstr) (images_dir : Option Lstr)
    (ex : Lstr → Bool) : Option Lstr :=
  match images_dir with
  | some d => if ex (pathJoin d filename) then some (pathJoin d filename) else none
  | none => none

/-- The final path component of a reference. -/
def basename (f : Lstr) : Lstr :=
  match (splitOnChar '/' f).getLast? with
  | some b => b
  | none => f

/-- Modelled from the spec: the Image Resolver's three-candidate search
order (spec §4.5) — (a) the reference itself as an existing path, then
(b) `asset_dir / basename(reference)`, then (c) `asset_dir / reference`;
`none` when no candidate exists or the directory is unset.  Stated only for
comparison with `resolve_image_path`, the function the source implements. -/
def resolve_image_path_spec (reference : Lstr) (asset_dir : Option Lstr)
    (ex : Lstr → Bool) : Option Lstr :=
  if ex reference then some reference
  else
    match asset_dir with
    | some d =>
      if ex (pathJoin d (basename reference)) then some (pathJoin d (basename reference))
      else if ex (pathJoin d reference) then some (pathJoin d reference)
      else none
    | none => none

/-- Modelled from the spec: the List Depth Resolver (spec §4.2) assigns each
raw indent its rank among the distinct indents of the face — the number of
distinct indents strictly below it.  The source has no such computation; this
definition exists to compare the claim against the source's behaviour. -/
def list_depth_resolver_spec (indents : List Nat) : List Nat :=
  indents.map (fun i => (indents.dedup.filter (fun j => j < i)).length)

/-- The flow elements `parse_to_flowables` appends (ReportLab flowables).
`para` records the markup text, whether the style is the centered question
style, and the style's `leftIndent`, `firstLineIndent` and `bulletIndent`
in points; `codeBlock` records the escaped text with the style's font size
and leading; `table` records the formatted cell texts of each row (first
row = header) and whether `hAlign` is CENTER; `image` records the resolved
path and whether `hAlign` is CENTER (the aspect-fit size computation needs
the decoded pixel sizes of the external image and is not modelled). -/
inductive Flowable where
  | para (text : Lstr) (center : Bool) (leftIndent : Nat) (firstLineIndent : Int)
      (bulletIndent : Nat)
  | codeBlock (text : Lstr) (fontSize leading : ℚ)
  | table (rows : List (List Lstr)) (centerAligned : Bool)
  | image (path : Lstr) (centerAligned : Bool)
deriving DecidableEq

/-- The escaped text of a code-block flowable. -/
def codeText : Flowable → Lstr
  | .codeBlock t _ _ => t
  | _ => []

/-- The `bulletIndent` values of the paragraph flowables, in order. -/
def bulletIndents (fls : List Flowable) : List Nat :=
  fls.filterMap fun f =>
    match f with
    | .para _ _ _ _ bi => some bi
    | _ => none

/-- The mutable locals of the line scan in `parse_to_flowables`
(flashcards.py:146-152). -/
structure PState where
  flowables : List Flowable
  in_code : Bool
  code_lines : List Lstr
  in_table : Bool
  table_data : List (List Lstr)
deriving DecidableEq

/-- The scan state on entry to the loop. -/
def initState : PState := ⟨[], false, [], false, []⟩

/-- Closing a fenced code block (flashcards.py:166-189): measure the longest
raw line with tabs expanded at the Courier 7.5pt code style plus twice the
border padding of 2; when that exceeds the available width `max_w`, scale
font size 7.5 and leading 9 by `(max_w * 0.98) / req_width`; the flowable's
text is the XML-escape of the verbatim joined lines. -/
def flushCode (sw : Lstr → ℚ) (max_w : ℚ) (code_lines : List Lstr) : Flowable :=
  let longest := longestLine code_lines
  let req_width : ℚ := sw (expandTabs longest) + 2 * 2
  if max_w < req_width then
    Flowable.codeBlock (escape (List.intercalate ['\n'] code_lines))
      (15 / 2 * (max_w * (98 / 100) / req_width)) (9 * (max_w * (98 / 100) / req_width))
  else
    Flowable.codeBlock (escape (List.intercalate ['\n'] code_lines)) (15 / 2) 9

/-- Emitting an open table (flashcards.py:219-226 and 287-292): the
accumulated rows, `hAlign` CENTER on question faces and LEFT on answers. -/
def flushTable (is_question : Bool) (table_data : List (List Lstr)) : Flowable :=
  Flowable.table table_data is_question

/-- The cells of a table row: `line_stripped.split("|")[1:-1]`, each cell
stripped (flashcards.py:200). -/
def rowCells (ls : Lstr) : List Lstr :=
  (((splitOnChar '|' ls).drop 1).dropLast).map pyStrip

/-- Whether a cell, with its spaces removed, consists solely of `-` and `:`
(the separator-row test `re.match(r"^[-:]+$", c.replace(" ", ""))`,
flashcards.py:201). -/
def isSepCell (cell : Lstr) : Bool :=
  let r := cell.filter (fun c => !(c == ' '))
  !r.isEmpty && r.all (fun c => c == '-' || c == ':')

/-- Whether `re.match(r"^\d+\.\s", clean_txt)` succeeds (flashcards.py:261):
one or more digits, a dot, then a whitespace character. -/
def ordMatch (clean : Lstr) : Bool :=
  let ds := clean.takeWhile Char.isDigit
  !ds.isEmpty &&
    (match clean.drop ds.length with
     | c1 :: c2 :: _ => c1 == '.' && pyIsSpace c2
     | _ => false)

/-- One iteration of the line loop of `parse_to_flowables`
(flashcards.py:161-285).  `sw` is the canvas's `stringWidth` at the code
style's font and size, `max_w` the available content width, `ex` the
filesystem, and `imgOk` whether ReportLab can decode the image at a path
(the `try`/`except` around `RLImage`). -/
def processLine (sw : Lstr → ℚ) (max_w : ℚ) (images_dir : Option Lstr)
    (ex imgOk : Lstr → Bool) (is_question : Bool) (st : PState) (line : Lstr) :
    PState :=
  let ls := pyStrip line
  if "```".data.isPrefixOf ls then
    if st.in_code then
      { st with in_code := false,
                flowables := st.flowables ++ [flushCode sw max_w st.code_lines],
                code_lines := [] }
    else
      { st with in_code := true }
  else if st.in_code then
    { st with code_lines := st.code_lines ++ [line] }
  else if "|".data.isPrefixOf ls && "|".data.isSuffixOf ls then
    let row := rowCells ls
    if row.all isSepCell then { st with in_table := true }
    else { st with in_table := true, table_data := st.table_data ++ [row.map formatInline] }
  else
    let st1 :=
      if st.in_table then
        { st with flowables := st.flowables ++ [flushTable is_question st.table_data],
                  in_table := false, table_data := [] }
      else st
    if ls.isEmpty then st1
    else
      match extract_image_names line with
      | n :: _ =>
        (match resolve_image_path n images_dir ex with
         | some p =>
           if imgOk p then
             { st1 with flowables := st1.flowables ++ [Flowable.image p is_question] }
           else st1
         | none => st1)
      | [] =>
        if "![".data.isPrefixOf ls || "](".data.isPrefixOf ls then st1
        else
          let indent := line.length - (pyLstrip line).length
          let clean0 := pyStrip line
          if "- ".data.isPrefixOf clean0 || "* ".data.isPrefixOf clean0 then
            let txt := formatInline (clean0.drop 2)
            if is_question then
              { st1 with flowables := st1.flowables ++ [Flowable.para txt true 0 0 0] }
            else
              { st1 with flowables := st1.flowables ++
                  [Flowable.para ("<bullet>&bull;</bullet>".data ++ txt) false
                    (indent * 4 + 12) (-12) (indent * 4)] }
          else if ordMatch clean0 then
            let ds := clean0.takeWhile Char.isDigit
            let txt := formatInline (pyLstrip (clean0.drop (ds.length + 1)))
            if is_question then
              { st1 with flowables := st1.flowables ++ [Flowable.para txt true 0 0 0] }
            else
              { st1 with flowables := st1.flowables ++
                  [Flowable.para
                    ("<bullet>".data ++ (ds ++ ['.']) ++ "</bullet>".data ++ txt) false
                    (indent * 4 + 12) (-12) (indent * 4)] }
          else
            let txt := formatInline clean0
            if is_question then
              { st1 with flowables := st1.flowables ++ [Flowable.para txt true 0 0 0] }
            else
              { st1 with flowables := st1.flowables ++
                  [Flowable.para txt false (indent * 4) 0 (indent * 4)] }

/-- `parse_to_flowables` (flashcards.py:145-294): on question faces the last
line is popped as the card number; the remaining lines are scanned with
`processLine`; a table still open at the end of the face is flushed — note
the source flushes no still-open code fence. -/
def parse_to_flowables (sw : Lstr → ℚ) (max_w : ℚ) (images_dir : Option Lstr)
    (ex imgOk : Lstr → Bool) (text : Lstr) (is_question : Bool) :
    List Flowable × Option Lstr :=
  let lines := splitNl text
  let popped :=
    if is_question then
      match lines.getLast? with
      | some last => (lines.dropLast, some (pyStrip last))
      | none => (lines, none)
    else (lines, none)
  let final := popped.1.foldl (processLine sw max_w images_dir ex imgOk is_question) initState
  (final.flowables ++
      (if final.in_table then [flushTable is_question final.table_data] else []),
    popped.2)

/-- The loop starts of `for i in range(0, len(questions), 4)`
(flashcards.py:333). -/
def pageStarts (n : Nat) : List Nat := (List.range ((n + 3) / 4)).map (fun k => 4 * k)

/-- The question batch of a page: `questions[i : i + 4]` (flashcards.py:334). -/
def questionBatch (questions : List Lstr) (i : Nat) : List Lstr :=
  (questions.drop i).take 4

/-- The answer batch before remapping:
`[answers[j] if j < len(answers) else "" for j in range(i, i + 4)]`
(flashcards.py:336); `getD` with default `""` is exactly the guarded index. -/
def ansBatch (answers : List Lstr) (i : Nat) : List Lstr :=
  (List.range 4).map (fun k => answers.getD (i + k) [])

/-- The duplex remap (flashcards.py:337-340): when the batch has at least two
entries swap cells 0 and 1, and when it has exactly four also swap cells 2
and 3 (the Python tuple swaps, written as pattern matches). -/
def duplexRemap {α : Type} (b : List α) : List α :=
  match b with
  | a :: b2 :: c :: d :: [] => b2 :: a :: d :: c :: []
  | a :: b2 :: rest => b2 :: a :: rest
  | other => other

/-- The per-page batches of `create_pdf`'s output loop (flashcards.py:333-342):
for every page the drawn question batch and the drawn (remapped) answer
batch, in page order. -/
def pagePairs (questions answers : List Lstr) : List (List Lstr × List Lstr) :=
  (pageStarts questions.length).map
    (fun i => (questionBatch questions i, duplexRemap (ansBatch answers i)))

/-- The duplex remap never changes the number of cells in a batch. -/
theorem length_duplexRemap {α : Type} (b : List α) :
    (duplexRemap b).length = b.length := by
  rcases b with _ | ⟨a, _ | ⟨b2, _ | ⟨c, _ | ⟨d, _ | ⟨e, rest⟩⟩⟩⟩⟩ <;> simp [duplexRemap]

/-- C5: for every answer batch on the 2×2 grid, the duplex remapper swaps the
cells at indices 0 and 1, and, when present, the cells at indices 2 and 3,
leaving each row's membership unchanged, so each answer lands behind its
question after the flip. -/
theorem C5_duplex_swap_within_row {α : Type} (a b c d : α) :
    duplexRemap [a, b, c, d] = [b, a, d, c] ∧
    duplexRemap [a, b] = [b, a] ∧
    duplexRemap [a, b, c] = [b, a, c] :=
  ⟨rfl, rfl, rfl⟩

/-- C6: applying the duplex remap twice returns the original batch ordering —
the remap is its own inverse, for batches of every length. -/
theorem C6_duplex_remap_involutive {α : Type} (b : List α) :
    duplexRemap (duplexRemap b) = b := by
  rcases b with _ | ⟨a, _ | ⟨b2, _ | ⟨c, _ | ⟨d, _ | ⟨e, rest⟩⟩⟩⟩⟩ <;> rfl

/-- C10: the answer batch is always read with a guarded index — every batch
has exactly 4 entries (also after the duplex remap), a slot whose index
reaches past the end of the answers list holds the empty string, and an
in-range slot holds exactly the corresponding answer; so PDF generation
never reads past the end of the answers list. -/
theorem C10_answer_batch_in_bounds (answers : List Lstr) (i : Nat) :
    (ansBatch answers i).length = 4 ∧
    (duplexRemap (ansBatch answers i)).length = 4 ∧
    (∀ k, k < 4 → answers.length ≤ i + k → (ansBatch answers i).getD k ['x'] = ([] : Lstr)) ∧
    (∀ k, k < 4 → i + k < answers.length →
      (ansBatch answers i).getD k ['x'] = answers.getD (i + k) []) := by
  have hlen : (ansBatch answers i).length = 4 := by simp [ansBatch]
  refine ⟨hlen, (length_duplexRemap _).trans hlen, ?_, ?_⟩
  · intro k hk hout
    have : ansBatch answers i =
        [answers.getD (i + 0) [], answers.getD (i + 1) [],
         answers.getD (i + 2) [], answers.getD (i + 3) []] := rfl
    rw [this]
    interval_cases k <;>
      simpa using List.getD_eq_default answers ([] : Lstr) hout
  · intro k hk hin
    have : ansBatch answers i =
        [answers.getD (i + 0) [], answers.getD (i + 1) [],
         answers.getD (i + 2) [], answers.getD (i + 3) []] := rfl
    rw [this]
    interval_cases k <;> simp

/-- C2 counterexample: a reference that is itself an existing
process-relative path with the asset directory unset — the spec's search
order resolves it (candidate (a)) but the source's resolver returns `None`:
the source never consults the reference-as-path candidate. -/
theorem C2_counterexample :
    resolve_image_path "pic.png".data none (fun s => s == "pic.png".data) = none ∧
    resolve_image_path_spec "pic.png".data none (fun s => s == "pic.png".data)
      = some "pic.png".data := by
  exact ⟨rfl, by decide⟩

/-- C2 (amended): the resolver consults exactly one candidate,
`asset_dir / reference`: it returns that path when the directory is set and
the joined path exists, returns `none` when the joined path does not exist,
and returns `none` whenever the directory is unset — even for a reference
that names an existing file on its own. -/
theorem C2_resolver_single_candidate (f d : Lstr) (ex g : Lstr → Bool)
    (h : ex (pathJoin d f) = true) (hg : g (pathJoin d f) = false) :
    resolve_image_path f (some d) ex = some (pathJoin d f) ∧
    resolve_image_path f (some d) g = none ∧
    resolve_image_path f none ex = none := by
  refine ⟨?_, ?_, rfl⟩ <;> simp [resolve_image_path, h, hg]

/-- C2 witness: the amended resolver behaviour at a concrete directory,
reference and filesystem. -/
theorem C2_resolver_single_candidate_witness :
    resolve_image_path "a.png".data (some "assets".data) (fun _ => true)
      = some (pathJoin "assets".data "a.png".data) ∧
    resolve_image_path "a.png".data (some "assets".data) (fun _ => false) = none ∧
    resolve_image_path "a.png".data none (fun _ => true) = none :=
  C2_resolver_single_candidate "a.png".data "assets".data
    (fun _ => true) (fun _ => false) rfl rfl

/-- C4 counterexample: with 2 questions and 2 answers the single emitted page
has a question batch of length 2 but an answer batch of length 4 — the
claimed invariant `len(answer_batch) == len(question_batch)` fails on the
short final page. -/
theorem C4_counterexample :
    (pagePairs [['q'], ['r']] [['a'], ['b']]).map
      (fun p => (p.1.length, p.2.length)) = [(2, 4)] ∧
    ¬ (∀ p ∈ pagePairs [['q'], ['r']] [['a'], ['b']], p.2.length = p.1.length) := by
  exact ⟨by decide, by decide⟩

/-- C4 (amended): every answer batch drawn has exactly `rows*cols = 4`
entries — missing slots are filled with empty placeholders on the answer
side only — while the question batch is an unpadded slice of the question
list of length at most 4; on a short final page the answer batch is longer
than the question batch, not equal to it. -/
theorem C4_batch_shapes (qs as : List Lstr) (p : List Lstr × List Lstr)
    (hp : p ∈ pagePairs qs as) :
    p.2.length = 4 ∧ p.1.length ≤ 4 ∧
    ∃ i, i ∈ pageStarts qs.length ∧ p.1 = questionBatch qs i := by
  obtain ⟨i, hi, rfl⟩ := List.mem_map.mp hp
  refine ⟨?_, ?_, i, hi, rfl⟩
  · rw [length_duplexRemap]
    simp [ansBatch]
  · exact List.length_take_le 4 _

/-- C4 witness: the amended batch shapes at the concrete two-card input. -/
theorem C4_batch_shapes_witness :
    (questionBatch [['q'], ['r']] 0, duplexRemap (ansBatch [['a'], ['b']] 0)).2.length = 4 ∧
    (questionBatch [['q'], ['r']] 0, duplexRemap (ansBatch [['a'], ['b']] 0)).1.length ≤ 4 ∧
    ∃ i, i ∈ pageStarts ([['q'], ['r']] : List Lstr).length ∧
      (questionBatch [['q'], ['r']] 0, duplexRemap (ansBatch [['a'], ['b']] 0)).1
        = questionBatch [['q'], ['r']] i :=
  C4_batch_shapes [['q'], ['r']] [['a'], ['b']] _ (by decide)

/-- C9: for an input of 10 cards the paginator emits exactly 3
question/answer page pairs whose question batches have sizes 4, 4, 2 in
order, and concatenating the question batches in page order reproduces the
card sequence (order preserved within and across batches). -/
theorem C9_grid_paginator_ten_cards (qs as : List Lstr) (hq : qs.length = 10) :
    (pagePairs qs as).length = 3 ∧
    (pagePairs qs as).map (fun p => p.1.length) = [4, 4, 2] ∧
    ((pagePairs qs as).map Prod.fst).flatten = qs := by
  have h3 : pageStarts qs.length = [0, 4, 8] := by rw [hq]; decide
  have h10 : pageStarts 10 = [0, 4, 8] := by decide
  refine ⟨?_, ?_, ?_⟩
  · simp [pagePairs, h3]
  · simp only [pagePairs, hq, h10, List.map_cons, List.map_nil, List.map_map,
      Function.comp_apply, questionBatch, List.length_take, List.length_drop,
      List.cons.injEq, and_true]
    omega
  · simp only [pagePairs, h3, List.map_cons, List.map_nil, List.flatten_cons,
      List.flatten_nil, questionBatch, List.drop_zero, List.append_nil]
    have h8 : (qs.drop 8).take 4 = qs.drop 8 :=
      List.take_of_length_le (by simp [hq])
    have h44 : (qs.drop 4).drop 4 = qs.drop 8 := by
      rw [List.drop_drop]
    rw [h8, ← h44, List.take_append_drop, List.take_append_drop]

/-- C9 witness: the paginator shape at a concrete 10-card input. -/
theorem C9_grid_paginator_ten_cards_witness :
    (pagePairs (List.replicate 10 ['q']) (List.replicate 10 ['a'])).length = 3 ∧
    (pagePairs (List.replicate 10 ['q']) (List.replicate 10 ['a'])).map
      (fun p => p.1.length) = [4, 4, 2] ∧
    ((pagePairs (List.replicate 10 ['q']) (List.replicate 10 ['a'])).map
      Prod.fst).flatten = List.replicate 10 ['q'] :=
  C9_grid_paginator_ten_cards (List.replicate 10 ['q']) (List.replicate 10 ['a'])
    (by decide)

/-- C3 counterexample: a face consisting of one image-reference line whose
reference cannot be resolved (no asset directory) produces no flowable at
all — the literal reference text is not rendered; the content is silently
dropped. -/
theorem C3_counterexample :
    parse_to_flowables (fun _ => 0) 0 none (fun _ => false) (fun _ => true)
      "![[missing.png]]".data false = ([], none) := by
  decide

/-- C3 (amended): for a line carrying an image reference that fails to
resolve (missing file or unset asset directory), and that reaches the image
branch (not a fence, not inside a code block, not a table row or just after
one, not blank), the scan state is returned unchanged: no flowable is
emitted for the line — the content is silently dropped, not rendered as
literal text — and the run does not crash (the scan is a total function). -/
theorem C3_unresolved_image_line_dropped (sw : Lstr → ℚ) (mw : ℚ)
    (dir : Option Lstr) (ex imgOk : Lstr → Bool) (q : Bool) (st : PState)
    (line : Lstr) (n : Lstr) (ns : List Lstr)
    (hcode : st.in_code = false) (htab : st.in_table = false)
    (hfence : "```".data.isPrefixOf (pyStrip line) = false)
    (htrow : ("|".data.isPrefixOf (pyStrip line) &&
      "|".data.isSuffixOf (pyStrip line)) = false)
    (hne : (pyStrip line).isEmpty = false)
    (himg : extract_image_names line = n :: ns)
    (hres : resolve_image_path n dir ex = none) :
    processLine sw mw dir ex imgOk q st line = st := by
  simp [processLine, hcode, htab, hfence, htrow, hne, himg, hres]

/-- C3 witness: the unresolved-reference line at a concrete input: the state
is unchanged, so nothing is rendered. -/
theorem C3_unresolved_image_line_dropped_witness :
    processLine (fun _ => 0) 0 none (fun _ => false) (fun _ => true) false
      initState "![[missing.png]]".data = initState :=
  C3_unresolved_image_line_dropped (fun _ => 0) 0 none (fun _ => false)
    (fun _ => true) false initState "![[missing.png]]".data "missing.png".data []
    rfl rfl (by decide) (by decide) (by decide) (by decide) rfl

/-- Scanning inside an open code fence only accumulates the raw lines: when
no further line strips to a fence marker, the fold keeps `in_code` set and
appends every line to `code_lines`, emitting no flowable. -/
theorem foldl_inside_open_fence (sw : Lstr → ℚ) (mw : ℚ) (dir : Option Lstr)
    (ex imgOk : Lstr → Bool) (q : Bool) (rest : List Lstr) :
    ∀ (fl : List Flowable) (cl : List Lstr),
      (∀ l ∈ rest, "```".data.isPrefixOf (pyStrip l) = false) →
      rest.foldl (processLine sw mw dir ex imgOk q) ⟨fl, true, cl, false, []⟩
        = ⟨fl, true, cl ++ rest, false, []⟩ := by
  induction rest with
  | nil => intro fl cl _; simp
  | cons l rest ih =>
    intro fl cl h
    have hl : "```".data.isPrefixOf (pyStrip l) = false := h l (by simp)
    have hstep : processLine sw mw dir ex imgOk q ⟨fl, true, cl, false, []⟩ l
        = ⟨fl, true, cl ++ [l], false, []⟩ := by
      simp [processLine, hl]
    rw [List.foldl_cons, hstep, ih (fl) (cl ++ [l]) (fun x hx => h x (by simp [hx]))]
    simp

/-- C8 counterexample: a face that opens a fence and never closes it loses
the accumulated line — no code block (no flowable at all) is emitted. -/
theorem C8_counterexample :
    parse_to_flowables (fun _ => 0) 0 none (fun _ => false) (fun _ => true)
      "```\ncode".data false = ([], none) := by
  decide

/-- C8 (amended): a fence opened and never closed is NOT closed implicitly at
end of face: for every answer face whose first line is a fence marker and
whose remaining lines never strip to a fence marker, the lines accumulated
inside the unterminated fence are discarded and the face yields no flowables
(only a still-open table is flushed at end of face, never an open code
block). -/
theorem C8_unterminated_fence_discarded (sw : Lstr → ℚ) (mw : ℚ)
    (dir : Option Lstr) (ex imgOk : Lstr → Bool) (text : Lstr) (rest : List Lstr)
    (hsplit : splitNl text = "```".data :: rest)
    (hrest : ∀ l ∈ rest, "```".data.isPrefixOf (pyStrip l) = false) :
    parse_to_flowables sw mw dir ex imgOk text false = ([], none) := by
  have h1 : processLine sw mw dir ex imgOk false initState "```".data
      = ⟨[], true, [], false, []⟩ := by
    have hps : ("```".data : Lstr).isPrefixOf (pyStrip "```".data) = true := by decide
    simp [processLine, initState, hps]
  simp only [parse_to_flowables, hsplit, Bool.false_eq_true, if_false,
    List.foldl_cons, h1]
  rw [foldl_inside_open_fence sw mw dir ex imgOk false rest [] [] hrest]
  simp

/-- C8 witness: a concrete unterminated fence whose inner line is dropped. -/
theorem C8_unterminated_fence_discarded_witness :
    parse_to_flowables (fun _ => 0) 0 none (fun _ => false) (fun _ => true)
      "```\nlost line".data false = ([], none) :=
  C8_unterminated_fence_discarded (fun _ => 0) 0 none (fun _ => false)
    (fun _ => true) "```\nlost line".data ["lost line".data] (by decide) (by decide)

/-- A text containing no newline splits into the single line it is. -/
theorem splitNl_eq_single (l : Lstr) (h : ∀ c ∈ l, c ≠ '\n') : splitNl l = [l] := by
  induction l with
  | nil => rfl
  | cons c rest ih =>
    have hc : (c == '\n') = false := by
      simpa using h c (by simp)
    have hr : splitOnChar '\n' rest = [rest] := ih (fun x hx => h x (by simp [hx]))
    simp [splitNl, splitOnChar, hc] at hr ⊢
    rw [hr]

/-- Leading spaces are removed by `lstrip` regardless of how many there are. -/
theorem pyLstrip_replicate_space (n : Nat) (t : Lstr) :
    pyLstrip (List.replicate n ' ' ++ t) = pyLstrip t := by
  induction n with
  | zero => rfl
  | succ n ih =>
    rw [List.replicate_succ, List.cons_append]
    simpa [pyLstrip, List.dropWhile] using ih

/-- The image scanner skips leading spaces (in sync with its fuel). -/
theorem extractF_replicate_space (n f : Nat) (t : Lstr) :
    extractF (n + f) (List.replicate n ' ' ++ t) = extractF f t := by
  induction n with
  | zero => simp
  | succ n ih =>
    have hshift : n + 1 + f = (n + f) + 1 := by omega
    rw [hshift, List.replicate_succ, List.cons_append]
    have hpre : ("![[".data : Lstr).isPrefixOf (' ' :: (List.replicate n ' ' ++ t))
        = false := by
      simp [List.isPrefixOf]
    simp only [extractF, hpre, Bool.false_eq_true, if_false]
    exact ih

/-- C1 counterexample: two answer faces whose list indents `[0,4]` and
`[0,2]` get identical rank-based depth sequences `[0,1]` under the spec's
resolver (which also maps `[0,0,2,2,4]` to `[0,0,1,1,2]`), yet the source
renders them with different indents (16 vs 8 points for the nested item):
the source's assignment depends on the absolute character count, not on the
rank, so it is not the claimed List Depth Resolver. -/
theorem C1_counterexample :
    list_depth_resolver_spec [0, 4] = list_depth_resolver_spec [0, 2] ∧
    list_depth_resolver_spec [0, 0, 2, 2, 4] = [0, 0, 1, 1, 2] ∧
    bulletIndents (parse_to_flowables (fun _ => 0) 0 none (fun _ => false)
      (fun _ => true) "- a\n    - b".data false).1 = [0, 16] ∧
    bulletIndents (parse_to_flowables (fun _ => 0) 0 none (fun _ => false)
      (fun _ => true) "- a\n  - b".data false).1 = [0, 8] ∧
    ([0, 16] : List Nat) ≠ [0, 8] :=
  ⟨by decide, by decide, by decide, by decide, by decide⟩

/-- C1 (amended): on an answer face the indent of a ListItem is proportional
to its raw leading-whitespace count — 4 points per character (`bulletIndent`
is `4·indent` and `leftIndent` is `4·indent + 12` for a bulleted item) — so
it depends on the absolute character count and is not normalized to the rank
of the indent among the distinct indents of the face; for raw indents
`[0,0,2,2,4]` the bullet indents are `[0,0,8,8,16]` points, not the depths
`[0,0,1,1,2]`. -/
theorem C1_indent_proportional_to_whitespace (sw : Lstr → ℚ) (mw : ℚ)
    (dir : Option Lstr) (ex imgOk : Lstr → Bool) (n : Nat) :
    (parse_to_flowables sw mw dir ex imgOk
        (List.replicate n ' ' ++ "- x".data) false).1
      = [Flowable.para "<bullet>&bull;</bullet>x".data false (n * 4 + 12) (-12)
          (n * 4)] := by
  have hnl : splitNl (List.replicate n ' ' ++ "- x".data)
      = [List.replicate n ' ' ++ "- x".data] := by
    apply splitNl_eq_single
    intro c hc
    rcases List.mem_append.mp hc with h | h
    · rw [List.eq_of_mem_replicate h]; decide
    · rcases (by simpa using h : c = '-' ∨ c = ' ' ∨ c = 'x') with rfl | rfl | rfl <;>
        decide
  have hls : pyStrip (List.replicate n ' ' ++ "- x".data) = "- x".data := by
    show pyRstrip (pyLstrip _) = _
    rw [pyLstrip_replicate_space]
    decide
  have hlen : (List.replicate n ' ' ++ "- x".data).length = n + 3 := by simp
  have hext : extract_image_names (List.replicate n ' ' ++ "- x".data) = [] := by
    show extractF (List.replicate n ' ' ++ "- x".data).length _ = []
    rw [hlen]
    exact (extractF_replicate_space n 3 "- x".data).trans (by decide)
  have hind : (List.replicate n ' ' ++ "- x".data).length
      - (pyLstrip (List.replicate n ' ' ++ "- x".data)).length = n := by
    rw [hlen, pyLstrip_replicate_space]
    have h3 : (pyLstrip "- x".data).length = 3 := by decide
    omega
  simp only [parse_to_flowables, hnl, Bool.false_eq_true, if_false,
    List.foldl_cons, List.foldl_nil]
  simp [processLine, hls, hext, hind, initState]
  refine ⟨by decide, ?_⟩
  rw [pyLstrip_replicate_space]
  have h3 : List.length (pyLstrip ['-', ' ', 'x']) = 3 := by decide
  omega

/-- The entity decoder is the identity on the empty string at any fuel. -/
theorem unescapeF_nil (f : Nat) : unescapeF f [] = [] := by
  cases f <;> rfl

/-- Escaping never shortens a string. -/
theorem le_length_escape (s : Lstr) : s.length ≤ (escape s).length := by
  induction s with
  | nil => simp [escape]
  | cons c rest ih =>
    have h1 : 1 ≤ (escapeChar c).length := by
      unfold escapeChar
      split_ifs <;> simp
    simp only [escape, List.length_append, List.length_cons]
    omega

/-- Decoding inverts escaping, given fuel at least the source length. -/
theorem unescapeF_escape (s : Lstr) : ∀ f, s.length ≤ f → unescapeF f (escape s) = s := by
  induction s with
  | nil =>
    intro f _
    exact unescapeF_nil f
  | cons c rest ih =>
    intro f hf
    obtain ⟨f', rfl⟩ : ∃ f', f = f' + 1 := ⟨f - 1, by simp at hf; omega⟩
    have hrest : rest.length ≤ f' := by simp at hf; omega
    by_cases h1 : c = '&'
    · subst h1
      rw [show escape ('&' :: rest) = '&' :: 'a' :: 'm' :: 'p' :: ';' :: escape rest
        from rfl]
      rw [show unescapeF (f' + 1) ('&' :: 'a' :: 'm' :: 'p' :: ';' :: escape rest)
            = '&' :: unescapeF f' (escape rest) from by simp [unescapeF, List.isPrefixOf]]
      rw [ih f' hrest]
    · by_cases h2 : c = '<'
      · subst h2
        rw [show escape ('<' :: rest) = '&' :: 'l' :: 't' :: ';' :: escape rest from rfl]
        rw [show unescapeF (f' + 1) ('&' :: 'l' :: 't' :: ';' :: escape rest)
              = '<' :: unescapeF f' (escape rest) from by simp [unescapeF, List.isPrefixOf]]
        rw [ih f' hrest]
      · by_cases h3 : c = '>'
        · subst h3
          rw [show escape ('>' :: rest) = '&' :: 'g' :: 't' :: ';' :: escape rest
            from rfl]
          rw [show unescapeF (f' + 1) ('&' :: 'g' :: 't' :: ';' :: escape rest)
                = '>' :: unescapeF f' (escape rest) from by simp [unescapeF, List.isPrefixOf]]
          rw [ih f' hrest]
        · have hec : escapeChar c = [c] := by
            simp [escapeChar, h1, h2, h3]
          have hb : (c == '&') = false := by simpa using h1
          rw [show escape (c :: rest) = escapeChar c ++ escape rest from rfl, hec,
            List.singleton_append]
          simp only [unescapeF, hb, Bool.false_and, Bool.false_eq_true, if_false]
          rw [ih f' hrest]

/-- Escaping loses no information: the decoder recovers the source text. -/
theorem unescape_escape (s : Lstr) : unescape (escape s) = s :=
  unescapeF_escape s (escape s).length (le_length_escape s)

/-- C7: closing a fenced block measures the longest raw line, tabs expanded,
at the code style (plus its border padding); when the measured width exceeds
the available width `mw ≥ 0`, the uniform factor
`scale = (mw * 0.98) / measured` — strictly less than 1 — is applied to the
block's font size (7.5) and leading (9), and the scaled measured width is
exactly `mw * 0.98`, hence at most it; a block that fits keeps font size 7.5
and leading 9 unscaled; and in both cases the flowable's text decodes back
to the verbatim joined lines character for character. -/
theorem C7_code_fitter_scaling (sw : Lstr → ℚ) (mw : ℚ) (cls : List Lstr)
    (h0 : 0 ≤ mw) :
    (mw < sw (expandTabs (longestLine cls)) + 2 * 2 →
      flushCode sw mw cls
        = Flowable.codeBlock (escape (List.intercalate ['\n'] cls))
            (15 / 2 * (mw * (98 / 100) / (sw (expandTabs (longestLine cls)) + 2 * 2)))
            (9 * (mw * (98 / 100) / (sw (expandTabs (longestLine cls)) + 2 * 2))) ∧
      mw * (98 / 100) / (sw (expandTabs (longestLine cls)) + 2 * 2) < 1 ∧
      mw * (98 / 100) / (sw (expandTabs (longestLine cls)) + 2 * 2)
          * (sw (expandTabs (longestLine cls)) + 2 * 2) = mw * (98 / 100)) ∧
    (sw (expandTabs (longestLine cls)) + 2 * 2 ≤ mw →
      flushCode sw mw cls
        = Flowable.codeBlock (escape (List.intercalate ['\n'] cls)) (15 / 2) 9) ∧
    unescape (codeText (flushCode sw mw cls)) = List.intercalate ['\n'] cls := by
  refine ⟨?_, ?_, ?_⟩
  · intro hlt
    have hpos : 0 < sw (expandTabs (longestLine cls)) + 2 * 2 := lt_of_le_of_lt h0 hlt
    refine ⟨?_, ?_, ?_⟩
    · simp only [flushCode, if_pos hlt]
    · rw [div_lt_one hpos]
      have hle1 : mw * (98 / 100) ≤ mw * 1 := by
        apply mul_le_mul_of_nonneg_left _ h0
        norm_num
      calc mw * (98 / 100) ≤ mw * 1 := hle1
        _ = mw := mul_one mw
        _ < _ := hlt
    · exact div_mul_cancel₀ _ (ne_of_gt hpos)
  · intro hle
    simp only [flushCode, if_neg (not_lt.mpr hle)]
  · have hct : codeText (flushCode sw mw cls) = escape (List.intercalate ['\n'] cls) := by
      simp only [flushCode]
      split <;> rfl
    rw [hct, unescape_escape]

/-- C7 witness: the fitter at a concrete metrics function (constant width
20), available width 7 and a one-line block: the overwide branch applies
scale `7·0.98/24 < 1` exactly, and the text round-trips. -/
theorem C7_code_fitter_scaling_witness :
    ((7 : ℚ) < 20 + 2 * 2 →
      flushCode (fun _ => (20 : ℚ)) 7 ["line".data]
        = Flowable.codeBlock (escape (List.intercalate ['\n'] ["line".data]))
            (15 / 2 * (7 * (98 / 100) / (20 + 2 * 2)))
            (9 * (7 * (98 / 100) / (20 + 2 * 2))) ∧
      (7 : ℚ) * (98 / 100) / (20 + 2 * 2) < 1 ∧
      (7 : ℚ) * (98 / 100) / (20 + 2 * 2) * (20 + 2 * 2) = 7 * (98 / 100)) ∧
    ((20 : ℚ) + 2 * 2 ≤ 7 →
      flushCode (fun _ => (20 : ℚ)) 7 ["line".data]
        = Flowable.codeBlock (escape (List.intercalate ['\n'] ["line".data]))
            (15 / 2) 9) ∧
    unescape (codeText (flushCode (fun _ => (20 : ℚ)) 7 ["line".data]))
      = List.intercalate ['\n'] ["line".data] :=
  C7_code_fitter_scaling (fun _ => (20 : ℚ)) 7 ["line".data] (by norm_num)

end Flashcards
